import Mathlib

/-!
Shallow embedding of the video-to-GIF segment editor.

JS numbers are modelled as exact rationals (ℚ).  The sources embedded here:
* `types.ts` — `Frame`, `Status`, `Segment`;
* `SegmentEditor.tsx` — `handleLoadedMetadata`, `handleRangeChange`,
  `extractFrames`, `handleFrameSelection`, `generateGif`;
* `App.tsx` — segment creation (`handleVideoUpload` / `addSegment`).

Browser effects (video element, canvas, workers, the remote caption call) are
modelled as explicit parameters: whether the refs and the 2d context are
available, the per-frame id source (`Math.random()` draws), the captured image
at each timestamp, and the outcomes of the encode / caption promises.
Each React `onUpdate(nextSegment)` call is recorded in an update list.
-/

/-- `types.ts`: `Frame { id, timestamp, dataUrl }`. -/
structure Frame where
  id : ℚ
  timestamp : ℚ
  dataUrl : String
deriving DecidableEq, Repr

/-- `types.ts`: `Status`. -/
inductive Status where
  | idle
  | extracting
  | frames_ready
  | generating
  | done
  | error
deriving DecidableEq, Repr

/-- `types.ts`: the `timeRange` record `{ start, end }` (`end` is a Lean
keyword, so the second field is named `stop`). -/
structure TimeRange where
  start : ℚ
  stop : ℚ
deriving DecidableEq, Repr

/-- `types.ts`: `selectedFrameRange` `{ start, end }` over optional frame ids
(`end` rendered as `stop`). -/
structure FrameRange where
  start : Option ℚ
  stop : Option ℚ
deriving DecidableEq, Repr

/-- `types.ts`: `Segment`. -/
structure Segment where
  id : ℚ
  timeRange : TimeRange
  frames : List Frame
  selectedFrameRange : FrameRange
  gifDescription : String
  status : Status
  gifUrl : Option String
  error : Option String
deriving DecidableEq, Repr

/-- `App.tsx` lines 18-25 / 29-36: the fresh segment built with `Date.now()`
as id (`now` is the clock reading at creation). -/
def newSegment (now : ℚ) : Segment :=
  { id := now
    timeRange := { start := 0, stop := 1 }
    frames := []
    selectedFrameRange := { start := none, stop := none }
    gifDescription := ""
    status := Status.idle
    gifUrl := none
    error := none }

/-- `App.tsx` `addSegment`: `setSegments(prev => [...prev, {…}])`. -/
def addSegment (segs : List Segment) (now : ℚ) : List Segment :=
  segs ++ [newSegment now]

/-- Semantics of JS `Array.prototype.findIndex` restricted to the first index
whose element satisfies `p`, as an optional index. -/
def findIdxQ (p : Frame → Bool) : List Frame → Option ℕ
  | [] => none
  | f :: fs => if p f then some 0 else (findIdxQ p fs).map (· + 1)

/-- JS `findIndex`: first matching index, `-1` when absent. -/
def jsFindIndex (p : Frame → Bool) (l : List Frame) : Int :=
  match findIdxQ p l with
  | some n => (n : Int)
  | none => -1

/-- JS `Array.prototype.slice(s, e)`: negative arguments count from the end,
both bounds are clamped to `[0, length]`, the element at `e` is excluded. -/
def jsSlice (l : List Frame) (s e : Int) : List Frame :=
  let n : Int := (l.length : Int)
  let s' : ℕ := (if s < 0 then max (n + s) 0 else min s n).toNat
  let e' : ℕ := (if e < 0 then max (n + e) 0 else min e n).toNat
  (l.drop s').take (e' - s')

/-- `SegmentEditor.tsx` line 90: the sampling loop
`for (let time = start; time <= end; time += 1/10)` recording the visited
timestamps.  The `fuel` argument is a totality witness only: `extractLoop`
below always supplies enough fuel for the loop to run to completion. -/
def loopF : ℕ → ℚ → ℚ → List ℚ
  | 0, _, _ => []
  | n + 1, stop, t => if t ≤ stop then t :: loopF n stop (t + 1 / 10) else []

/-- Number of iterations the sampling loop performs from time `t`. -/
def stepCount (stop t : ℚ) : ℕ := (⌊(stop - t) * 10⌋ + 1).toNat

/-- The timestamps visited by the extraction loop of `SegmentEditor.tsx`. -/
def extractLoop (stop t : ℚ) : List ℚ := loopF (stepCount stop t) stop t

/-- `SegmentEditor.tsx` lines 90-102: one `Frame` is pushed per visited
timestamp, with `id: Math.random()` modelled by the draw stream `g` (the
`k`-th iteration receives `g k`) and the serialized canvas capture modelled
by `d`. -/
def buildFrames (g : ℕ → ℚ) (d : ℚ → String) : ℕ → List ℚ → List Frame
  | _, [] => []
  | k, t :: ts => { id := g k, timestamp := t, dataUrl := d t } :: buildFrames g d (k + 1) ts

lemma stepCount_of_not_le {stop t : ℚ} (h : ¬ t ≤ stop) : stepCount stop t = 0 := by
  have hlt : (stop - t) * 10 < 0 := by
    have : stop - t < 0 := by linarith [lt_of_not_le h]
    nlinarith
  have hfl : ⌊(stop - t) * 10⌋ < 0 := by
    by_contra hge
    push_neg at hge
    exact absurd (Int.floor_nonneg.mp hge) (not_le.mpr hlt)
  unfold stepCount
  omega

lemma stepCount_floor_nonneg {stop t : ℚ} (h : t ≤ stop) : 0 ≤ ⌊(stop - t) * 10⌋ := by
  apply Int.floor_nonneg.mpr
  nlinarith [sub_nonneg.mpr h]

lemma stepCount_of_le {stop t : ℚ} (h : t ≤ stop) :
    stepCount stop t = (⌊(stop - t) * 10⌋).toNat + 1 := by
  have := stepCount_floor_nonneg h
  unfold stepCount
  omega

lemma stepCount_step {stop t : ℚ} (h : t ≤ stop) :
    stepCount stop (t + 1 / 10) + 1 = stepCount stop t := by
  have hkey : (stop - (t + 1 / 10)) * 10 = (stop - t) * 10 - 1 := by ring
  have hfl : ⌊(stop - (t + 1 / 10)) * 10⌋ = ⌊(stop - t) * 10⌋ - 1 := by
    rw [hkey, Int.floor_sub_one]
  have h0 := stepCount_floor_nonneg h
  unfold stepCount
  rw [hfl]
  omega

/-- The sampling loop, run with sufficient fuel, visits exactly the
timestamps `t, t + 1/10, …` while they stay `≤ stop`. -/
lemma loopF_eq (n : ℕ) : ∀ t : ℚ, ∀ stop : ℚ, stepCount stop t ≤ n →
    loopF n stop t = (List.range (stepCount stop t)).map (fun k : ℕ => t + (k : ℚ) / 10) := by
  induction n with
  | zero =>
    intro t stop hle
    have h0 : stepCount stop t = 0 := Nat.le_zero.mp hle
    rw [h0]
    rfl
  | succ n ih =>
    intro t stop hle
    by_cases h : t ≤ stop
    · have hstep := stepCount_step h
      have hcount := stepCount_of_le h
      have hle' : stepCount stop (t + 1 / 10) ≤ n := by omega
      have hrec : loopF (n + 1) stop t = t :: loopF n stop (t + 1 / 10) := by
        simp [loopF, h]
      rw [hrec, ih _ _ hle']
      have hm : stepCount stop t = stepCount stop (t + 1 / 10) + 1 := hstep.symm
      rw [hm, List.range_succ_eq_map, List.map_cons, List.map_map]
      congr 1
      · norm_num
      · apply List.map_congr_left
        intro k _
        simp only [Function.comp_apply, Nat.succ_eq_add_one]
        push_cast
        ring
    · have h0 : stepCount stop t = 0 := stepCount_of_not_le h
      rw [h0]
      simp [loopF, h]

/-- Closed form of the extraction loop. -/
lemma extractLoop_eq_map (stop t : ℚ) :
    extractLoop stop t = (List.range (stepCount stop t)).map (fun k : ℕ => t + (k : ℚ) / 10) :=
  loopF_eq _ _ _ le_rfl

/-- `buildFrames` over an indexed family of timestamps. -/
lemma buildFrames_map_range (g : ℕ → ℚ) (d : ℚ → String) :
    ∀ (n : ℕ) (f : ℕ → ℚ) (k : ℕ),
      buildFrames g d k ((List.range n).map f) =
        (List.range n).map (fun i => Frame.mk (g (k + i)) (f i) (d (f i))) := by
  intro n
  induction n with
  | zero => intro f k; rfl
  | succ n ih =>
    intro f k
    rw [List.range_succ_eq_map, List.map_cons, List.map_map, List.map_cons]
    show Frame.mk (g k) (f 0) (d (f 0)) :: buildFrames g d (k + 1) ((List.range n).map (f ∘ Nat.succ)) = _
    rw [ih (f ∘ Nat.succ) (k + 1), List.map_map]
    congr 1
    apply List.map_congr_left
    intro a _
    simp only [Function.comp_apply, Nat.succ_eq_add_one]
    have h1 : k + 1 + a = k + (a + 1) := by omega
    rw [h1]

/-- `SegmentEditor.tsx` lines 55-62, `handleLoadedMetadata`: once the video's
metadata is available, a segment whose `timeRange.end` is still the default
sentinel `1` gets `{start: 0, end: Math.min(5, duration)}`; otherwise no
segment update is issued (`none`). -/
def handleLoadedMetadata (s : Segment) (duration : ℚ) : Option Segment :=
  if s.timeRange.stop = 1 then
    some { s with timeRange := { start := 0, stop := min 5 duration } }
  else
    none

/-- The `'start' | 'end'` discriminator of `handleRangeChange`. -/
inductive EditPart where
  | pstart
  | pend
deriving DecidableEq, Repr

/-- `SegmentEditor.tsx` lines 64-75, `handleRangeChange`: a start edit is
applied only when `value < end`, an end edit only when `value > start`;
otherwise no update is issued (`none`). -/
def handleRangeChange (s : Segment) (part : EditPart) (value : ℚ) : Option Segment :=
  match part with
  | EditPart.pstart =>
      if value < s.timeRange.stop then
        some { s with timeRange := { start := value, stop := s.timeRange.stop } }
      else none
  | EditPart.pend =>
      if value > s.timeRange.start then
        some { s with timeRange := { start := s.timeRange.start, stop := value } }
      else none

/-- `SegmentEditor.tsx` lines 77-104, `extractFrames`.  `refsOk` models
`videoRef.current && canvasRef.current` being non-null, `ctxOk` models
`canvas.getContext('2d')` succeeding.  Returns the list of `onUpdate` calls
in order.  Note all updates spread the `segment` captured at call time. -/
def extractFrames (s : Segment) (refsOk ctxOk : Bool) (g : ℕ → ℚ) (d : ℚ → String) :
    List Segment :=
  if !refsOk then []
  else
    let u1 : Segment :=
      { s with status := Status.extracting, frames := [],
               selectedFrameRange := { start := none, stop := none },
               gifDescription := "" }
    if !ctxOk then [u1]
    else
      let extractedFrames :=
        buildFrames g d 0 (extractLoop s.timeRange.stop s.timeRange.start)
      [u1, { s with frames := extractedFrames, status := Status.frames_ready }]

/-- `SegmentEditor.tsx` lines 106-121, `handleFrameSelection`. -/
def handleFrameSelection (s : Segment) (frameId : ℚ) : Segment :=
  match s.selectedFrameRange.start, s.selectedFrameRange.stop with
  | none, _ =>
      { s with selectedFrameRange := { start := some frameId, stop := none } }
  | some st, none =>
      let startIndex := jsFindIndex (fun f => decide (f.id = st)) s.frames
      let newIndex := jsFindIndex (fun f => decide (f.id = frameId)) s.frames
      if newIndex < startIndex then
        { s with selectedFrameRange := { start := some frameId, stop := some st } }
      else
        { s with selectedFrameRange := { start := some st, stop := some frameId } }
  | some _, some _ =>
      { s with selectedFrameRange := { start := some frameId, stop := none } }

/-- Observable effects of one `generateGif` call: the `onUpdate` calls in
order, the resolved sub-sequence (`selectedFrames` in the source), and the
data fed to the encoder (`gif.addFrame` image sources, in order) and to the
caption service (`selectedFrames.map(f => f.dataUrl)`). -/
structure GenEffects where
  updates : List Segment
  selected : Option (List Frame)
  encoderInput : Option (List String)
  captionInput : Option (List String)
deriving DecidableEq, Repr

/-- `SegmentEditor.tsx` lines 123-183, `generateGif`.  `encRes` is the
outcome of the animation-encoding promise (object URL on success), `capRes`
the outcome of the caption call.  `Promise.all` resolves with both values
when both succeed; the `catch` block fires on the first failure, whose
message is interpolated into `Failed to generate GIF. …`.  Every update
spreads the `segment` captured when the call started. -/
def generateGif (s : Segment) (encRes capRes : Except String String) : GenEffects :=
  match s.selectedFrameRange.start, s.selectedFrameRange.stop with
  | some a, some b =>
      let u1 : Segment := { s with status := Status.generating, gifUrl := none, error := none }
      let startIndex := jsFindIndex (fun f => decide (f.id = a)) s.frames
      let endIndex := jsFindIndex (fun f => decide (f.id = b)) s.frames
      let selectedFrames := jsSlice s.frames (min startIndex endIndex) (max startIndex endIndex + 1)
      let ufinal : Segment :=
        match encRes, capRes with
        | Except.ok gifUrl, Except.ok description =>
            { s with gifDescription := description, gifUrl := some gifUrl,
                     status := Status.done }
        | Except.error e, _ =>
            { s with status := Status.error,
                     error := some ("Failed to generate GIF. " ++ e) }
        | _, Except.error e =>
            { s with status := Status.error,
                     error := some ("Failed to generate GIF. " ++ e) }
      { updates := [u1, ufinal]
        selected := some selectedFrames
        encoderInput := some (selectedFrames.map Frame.dataUrl)
        captionInput := some (selectedFrames.map Frame.dataUrl) }
  | _, _ => { updates := [], selected := none, encoderInput := none, captionInput := none }

/-- The operations a segment can receive, each carrying its environment. -/
inductive Ev where
  | rangeChange (part : EditPart) (value : ℚ)
  | loadedMetadata (duration : ℚ)
  | selectFrame (frameId : ℚ)
  | extract (refsOk ctxOk : Bool) (g : ℕ → ℚ) (d : ℚ → String)
  | generate (encRes capRes : Except String String)

/-- The `onUpdate` calls an operation issues when invoked on segment `s`. -/
def applyEv (s : Segment) : Ev → List Segment
  | Ev.rangeChange part value => (handleRangeChange s part value).toList
  | Ev.loadedMetadata duration => (handleLoadedMetadata s duration).toList
  | Ev.selectFrame frameId => [handleFrameSelection s frameId]
  | Ev.extract refsOk ctxOk g d => extractFrames s refsOk ctxOk g d
  | Ev.generate encRes capRes => (generateGif s encRes capRes).updates

/-- Environment assumption: metadata loads report a positive duration. -/
def Admissible : Ev → Prop
  | Ev.loadedMetadata duration => 0 < duration
  | _ => True

/-- One admissible operation step: `s'` is among the updates that an
admissible operation, invoked on `s`, passes to `onUpdate`. -/
def GoodStep (s s' : Segment) : Prop :=
  ∃ ev, Admissible ev ∧ s' ∈ applyEv s ev

/-- Segments reachable from a freshly created segment through admissible
operations. -/
def ReachGood (s : Segment) : Prop :=
  ∃ t, Relation.ReflTransGen GoodStep (newSegment t) s

/-- A found index is inside the list. -/
lemma findIdxQ_lt_length {p : Frame → Bool} :
    ∀ {l : List Frame} {i : ℕ}, findIdxQ p l = some i → i < l.length := by
  intro l
  induction l with
  | nil => intro i h; simp [findIdxQ] at h
  | cons f fs ih =>
    intro i h
    by_cases hp : p f
    · simp [findIdxQ, hp] at h
      have hlen : (f :: fs).length = fs.length + 1 := rfl
      omega
    · simp [findIdxQ, hp] at h
      obtain ⟨j, hj, rfl⟩ := h
      have := ih hj
      have hlen : (f :: fs).length = fs.length + 1 := rfl
      omega

/-- Every update issued by `handleRangeChange` keeps the segment id, and its
time range satisfies `start < stop`. -/
lemma mem_rangeChange_props {s : Segment} {part : EditPart} {value : ℚ} {w : Segment}
    (h : w ∈ (handleRangeChange s part value).toList) :
    w.id = s.id ∧ w.timeRange.start < w.timeRange.stop := by
  cases part with
  | pstart =>
    by_cases hc : value < s.timeRange.stop
    · simp [handleRangeChange, hc] at h
      subst h
      exact ⟨rfl, hc⟩
    · simp [handleRangeChange, hc] at h
  | pend =>
    by_cases hc : value > s.timeRange.start
    · simp [handleRangeChange, hc] at h
      subst h
      exact ⟨rfl, hc⟩
    · simp [handleRangeChange, hc] at h

/-- Every update issued by `handleLoadedMetadata` with a positive duration
keeps the segment id and satisfies `start < stop`. -/
lemma mem_loadedMetadata_props {s : Segment} {dur : ℚ} {w : Segment}
    (hdur : 0 < dur) (h : w ∈ (handleLoadedMetadata s dur).toList) :
    w.id = s.id ∧ w.timeRange.start < w.timeRange.stop := by
  by_cases hc : s.timeRange.stop = 1
  · simp [handleLoadedMetadata, hc] at h
    subst h
    refine ⟨rfl, ?_⟩
    simp only
    exact lt_min (by norm_num) hdur
  · simp [handleLoadedMetadata, hc] at h

/-- `handleFrameSelection` changes only the selection. -/
lemma handleFrameSelection_props (s : Segment) (fid : ℚ) :
    (handleFrameSelection s fid).id = s.id ∧
    (handleFrameSelection s fid).timeRange = s.timeRange ∧
    (handleFrameSelection s fid).frames = s.frames := by
  unfold handleFrameSelection
  split
  · exact ⟨rfl, rfl, rfl⟩
  · dsimp only
    split <;> exact ⟨rfl, rfl, rfl⟩
  · exact ⟨rfl, rfl, rfl⟩

/-- Every update issued by `extractFrames` keeps the segment id and the
time range. -/
lemma mem_extractFrames_props {s : Segment} {r c : Bool} {g : ℕ → ℚ} {d : ℚ → String}
    {w : Segment} (h : w ∈ extractFrames s r c g d) :
    w.id = s.id ∧ w.timeRange = s.timeRange := by
  unfold extractFrames at h
  cases r with
  | false => simp at h
  | true =>
    cases c with
    | false =>
      simp at h
      subst h
      exact ⟨rfl, rfl⟩
    | true =>
      simp at h
      rcases h with h | h <;> subst h <;> exact ⟨rfl, rfl⟩

/-- Every update issued by `generateGif` keeps the segment id and the
time range. -/
lemma mem_generateGif_props {s : Segment} {encRes capRes : Except String String}
    {w : Segment} (h : w ∈ (generateGif s encRes capRes).updates) :
    w.id = s.id ∧ w.timeRange = s.timeRange := by
  unfold generateGif at h
  rcases hs : s.selectedFrameRange.start with _ | a <;>
    rcases ht : s.selectedFrameRange.stop with _ | b <;>
      rw [hs, ht] at h
  · simp at h
  · simp at h
  · simp at h
  · simp at h
    rcases h with h | h
    · subst h; exact ⟨rfl, rfl⟩
    · cases encRes <;> cases capRes <;> subst h <;> exact ⟨rfl, rfl⟩

/-- C8: `generateGif` with at most one selection end set issues no update
and starts no encoding or caption work. -/
theorem generateGif_single_end_noop (s : Segment) (encRes capRes : Except String String)
    (h : s.selectedFrameRange.start = none ∨ s.selectedFrameRange.stop = none) :
    generateGif s encRes capRes =
      { updates := [], selected := none, encoderInput := none, captionInput := none } := by
  unfold generateGif
  rcases h with h | h
  · rw [h]
  · rcases hs : s.selectedFrameRange.start with _ | a
    · rfl
    · rw [h]

theorem generateGif_single_end_noop_witness :
    generateGif (newSegment 4) (Except.ok "u") (Except.ok "d") =
      { updates := [], selected := none, encoderInput := none, captionInput := none } :=
  generateGif_single_end_noop (newSegment 4) (Except.ok "u") (Except.ok "d") (Or.inl rfl)

/-- C10: on metadata load, a segment whose `timeRange.end` is exactly the
default sentinel `1` has its whole time range replaced by
`{start: 0, end: min(5, duration)}`; any other segment receives no update. -/
theorem loadedMetadata_default_replace (s : Segment) (d : ℚ) :
    (s.timeRange.stop = 1 →
      handleLoadedMetadata s d =
        some { s with timeRange := { start := 0, stop := min 5 d } }) ∧
    (s.timeRange.stop ≠ 1 → handleLoadedMetadata s d = none) := by
  constructor <;> intro h <;> simp [handleLoadedMetadata, h]

theorem loadedMetadata_default_replace_witness :
    handleLoadedMetadata (newSegment 7) 3 =
      some { newSegment 7 with timeRange := { start := 0, stop := min 5 3 } } :=
  (loadedMetadata_default_replace (newSegment 7) 3).1 rfl

/-- C3 (amended): the `extractFrames` transition update sets status
`extracting` and clears frames, selection and description, but leaves
`gifUrl` and `error` unchanged (they are not cleared). -/
theorem extractFrames_reset_behavior (s : Segment) (ctxOk : Bool)
    (g : ℕ → ℚ) (d : ℚ → String) :
    (extractFrames s true ctxOk g d).head? =
      some { s with status := Status.extracting, frames := [],
                    selectedFrameRange := { start := none, stop := none },
                    gifDescription := "" } := by
  cases ctxOk <;> rfl

/-- A `done` segment carrying a gif URL and a stale error message, as left by
a failed regeneration followed by a successful one. -/
def c3cexseg : Segment :=
  { id := 1
    timeRange := { start := 0, stop := 1 }
    frames := [⟨1, 0, "img"⟩]
    selectedFrameRange := { start := some 1, stop := none }
    gifDescription := "desc"
    status := Status.done
    gifUrl := some "blob"
    error := some "Failed to generate GIF. old" }

/-- C3 (counterexample): re-extracting a `done` segment does NOT clear
`gifUrl` or `error` — the extracting update retains both. -/
theorem extractFrames_reset_cex :
    ((extractFrames c3cexseg true true (fun _ => (0 : ℚ)) (fun _ => "")).head?).map
      (fun u => (u.status, u.gifUrl, u.error)) =
      some (Status.extracting, some "blob", some "Failed to generate GIF. old") := by
  decide

/-- C4 (code bug): when the 2d context cannot be acquired, `extractFrames`
has already issued the `extracting` update and then merely returns: the only
update leaves the segment in status `extracting` with no error signalled. -/
theorem extractFrames_ctx_failure_stuck :
    (extractFrames (newSegment 2) true false (fun _ => (0 : ℚ)) (fun _ => "")).map
      (fun u => (u.status, u.error)) = [(Status.extracting, none)] := by
  decide

/-- Selection arm 1: unset anchor starts a fresh selection. -/
lemma handleFrameSelection_arm1 (s : Segment) (fid : ℚ)
    (h : s.selectedFrameRange.start = none) :
    handleFrameSelection s fid =
      { s with selectedFrameRange := { start := some fid, stop := none } } := by
  unfold handleFrameSelection
  rw [h]

/-- Selection arm 2: with an anchor and no end, the click always completes
the pair — both ends are set afterwards. -/
lemma handleFrameSelection_arm2 (s : Segment) (st fid : ℚ)
    (h1 : s.selectedFrameRange.start = some st)
    (h2 : s.selectedFrameRange.stop = none) :
    ∃ u v : ℚ, handleFrameSelection s fid =
      { s with selectedFrameRange := { start := some u, stop := some v } } := by
  unfold handleFrameSelection
  rw [h1, h2]
  dsimp only
  split
  · exact ⟨fid, st, rfl⟩
  · exact ⟨st, fid, rfl⟩

/-- Selection arm 3: with both ends set, a click discards the pair and starts
a fresh selection. -/
lemma handleFrameSelection_arm3 (s : Segment) (u v fid : ℚ)
    (h1 : s.selectedFrameRange.start = some u)
    (h2 : s.selectedFrameRange.stop = some v) :
    handleFrameSelection s fid =
      { s with selectedFrameRange := { start := some fid, stop := none } } := by
  unfold handleFrameSelection
  rw [h1, h2]

/-- Selection arm 3, stated on the resulting selection only. -/
lemma handleFrameSelection_sel3 (s : Segment) (u v fid : ℚ)
    (h1 : s.selectedFrameRange.start = some u)
    (h2 : s.selectedFrameRange.stop = some v) :
    (handleFrameSelection s fid).selectedFrameRange =
      { start := some fid, stop := none } := by
  rw [handleFrameSelection_arm3 s u v fid h1 h2]

/-- C7 (amended): from any segment whose selection is not in the
"anchor-only" state (start set, end unset), three `selectFrame` calls on
frame ids `a`, `b`, `c` present in `frames` with `a ≠ b` leave the selection
`{start: c, end: none}`. -/
theorem selectFrame_triple (s : Segment) (a b c : ℚ)
    (hsel : s.selectedFrameRange.start = none ∨ s.selectedFrameRange.stop ≠ none)
    (ha : a ∈ s.frames.map Frame.id) (hb : b ∈ s.frames.map Frame.id)
    (hc : c ∈ s.frames.map Frame.id) (hab : a ≠ b) :
    (handleFrameSelection (handleFrameSelection (handleFrameSelection s a) b)
        c).selectedFrameRange =
      { start := some c, stop := none } := by
  have h1 : handleFrameSelection s a =
      { s with selectedFrameRange := { start := some a, stop := none } } := by
    rcases hsel with h | h
    · exact handleFrameSelection_arm1 s a h
    · rcases ht : s.selectedFrameRange.stop with _ | v
      · exact absurd ht h
      · rcases hs : s.selectedFrameRange.start with _ | u
        · exact handleFrameSelection_arm1 s a hs
        · exact handleFrameSelection_arm3 s u v a hs ht
  rw [h1]
  obtain ⟨u, v, h2⟩ :=
    handleFrameSelection_arm2
      { s with selectedFrameRange := { start := some a, stop := none } } a b rfl rfl
  exact handleFrameSelection_sel3 _ u v c (by rw [h2]) (by rw [h2])

/-- A `frames_ready` segment with four extracted frames and a fresh (empty)
selection. -/
def c7wseg : Segment :=
  { id := 1
    timeRange := { start := 0, stop := 1 }
    frames := [⟨1, 0, "f0"⟩, ⟨2, 1 / 10, "f1"⟩, ⟨3, 2 / 10, "f2"⟩]
    selectedFrameRange := { start := none, stop := none }
    gifDescription := ""
    status := Status.frames_ready
    gifUrl := none
    error := none }

theorem selectFrame_triple_witness :
    (handleFrameSelection (handleFrameSelection (handleFrameSelection c7wseg 1) 2)
        3).selectedFrameRange = { start := some 3, stop := none } :=
  selectFrame_triple c7wseg 1 2 3 (Or.inl rfl) (by decide) (by decide) (by decide)
    (by decide)

/-- A segment whose selection is in the anchor-only state. -/
def c7cexseg : Segment :=
  { id := 1
    timeRange := { start := 0, stop := 1 }
    frames := [⟨1, 0, "f0"⟩, ⟨2, 1 / 10, "f1"⟩, ⟨3, 2 / 10, "f2"⟩, ⟨4, 3 / 10, "f3"⟩]
    selectedFrameRange := { start := some 1, stop := none }
    gifDescription := ""
    status := Status.frames_ready
    gifUrl := none
    error := none }

/-- C7 (counterexample): from a segment whose selection already holds an
anchor, `select(2); select(3); select(4)` ends with BOTH ends set
(`{start: 3, end: 4}`), not `{start: 4, end: none}`. -/
theorem selectFrame_triple_cex :
    (handleFrameSelection (handleFrameSelection (handleFrameSelection c7cexseg 2) 3)
        4).selectedFrameRange ≠ { start := some 4, stop := none } := by
  decide

/-- C5: with both selection ends set to ids `a` and `b` found at indices `i`
and `j` with `j < i`, `generateGif` resolves (and feeds, in order, to the
encoder and the caption service) exactly the inclusive span of `frames` from
index `j` through index `i` — the span between the lower and the higher
index, regardless of selection order. -/
theorem generateGif_export_span (s : Segment) (a b : ℚ) (i j : ℕ)
    (encRes capRes : Except String String)
    (hsel : s.selectedFrameRange = { start := some a, stop := some b })
    (ha : findIdxQ (fun f => decide (f.id = a)) s.frames = some i)
    (hb : findIdxQ (fun f => decide (f.id = b)) s.frames = some j)
    (hji : j < i) :
    (generateGif s encRes capRes).selected =
        some ((s.frames.drop j).take (i - j + 1)) ∧
    (generateGif s encRes capRes).encoderInput =
        some (((s.frames.drop j).take (i - j + 1)).map Frame.dataUrl) ∧
    (generateGif s encRes capRes).captionInput =
        some (((s.frames.drop j).take (i - j + 1)).map Frame.dataUrl) := by
  have hi_lt : i < s.frames.length := findIdxQ_lt_length ha
  have hstart : s.selectedFrameRange.start = some a := by rw [hsel]
  have hstop : s.selectedFrameRange.stop = some b := by rw [hsel]
  have hfi : jsFindIndex (fun f => decide (f.id = a)) s.frames = (i : Int) := by
    unfold jsFindIndex
    rw [ha]
  have hfj : jsFindIndex (fun f => decide (f.id = b)) s.frames = (j : Int) := by
    unfold jsFindIndex
    rw [hb]
  have hmin : min ((i : Int)) ((j : Int)) = (j : Int) := by omega
  have hmax : max ((i : Int)) ((j : Int)) = (i : Int) := by omega
  have hslice : jsSlice s.frames ((j : Int)) ((i : Int) + 1) =
      (s.frames.drop j).take (i - j + 1) := by
    unfold jsSlice
    have h1 : ¬ ((j : Int) < 0) := by omega
    have h2 : ¬ ((i : Int) + 1 < 0) := by omega
    have h3 : min ((j : Int)) ((s.frames.length : Int)) = (j : Int) := by omega
    have h4 : min ((i : Int) + 1) ((s.frames.length : Int)) = (i : Int) + 1 := by omega
    simp only [if_neg h1, if_neg h2, h3, h4]
    have h5 : ((j : Int)).toNat = j := Int.toNat_natCast j
    have h6 : ((i : Int) + 1).toNat = i + 1 := by omega
    rw [h5, h6]
    have h7 : i + 1 - j = i - j + 1 := by omega
    rw [h7]
  unfold generateGif
  rw [hstart, hstop]
  simp only [hfi, hfj, hmin, hmax, hslice]
  exact ⟨trivial, trivial, trivial⟩

/-- A `frames_ready` segment selected "backwards": the selection start id
sits at index 2, the end id at index 0. -/
def c5wseg : Segment :=
  { id := 1
    timeRange := { start := 0, stop := 1 }
    frames := [⟨1, 0, "f0"⟩, ⟨2, 1 / 10, "f1"⟩, ⟨3, 2 / 10, "f2"⟩]
    selectedFrameRange := { start := some 3, stop := some 1 }
    gifDescription := ""
    status := Status.frames_ready
    gifUrl := none
    error := none }

theorem generateGif_export_span_witness :
    (generateGif c5wseg (Except.ok "u") (Except.ok "d")).selected =
      some ((c5wseg.frames.drop 0).take 3) :=
  (generateGif_export_span c5wseg 3 1 2 0 (Except.ok "u") (Except.ok "d") rfl
    (by decide) (by decide) (by decide)).1

/-- The wrapped failure message is never empty. -/
lemma genError_ne_empty (e : String) : ("Failed to generate GIF. " ++ e) ≠ "" := by
  intro hemp
  have hlen := congrArg String.length hemp
  rw [String.length_append] at hlen
  have h24 : ("Failed to generate GIF. ").length = 24 := by decide
  have h0 : ("" : String).length = 0 := by decide
  omega

/-- C2 (amended): with both selection ends set, `generateGif` first issues a
`generating` update with `gifUrl` and `error` cleared; the final update is
`done` with `gifUrl` and `gifDescription` set exactly when both the encoding
and the caption call succeed, and on failure of either it is `error` with a
non-empty message while the other operation's result is discarded —
`gifDescription` and `gifUrl` keep the values the segment had when the call
started (so `gifUrl` is undefined only if no earlier gif existed). -/
theorem generateGif_join_semantics (s : Segment) (a b : ℚ)
    (encRes capRes : Except String String)
    (hsel : s.selectedFrameRange = { start := some a, stop := some b }) :
    ∃ u1 ufinal, (generateGif s encRes capRes).updates = [u1, ufinal] ∧
      u1.status = Status.generating ∧ u1.gifUrl = none ∧ u1.error = none ∧
      (∀ url desc, encRes = Except.ok url → capRes = Except.ok desc →
        ufinal = { s with gifDescription := desc, gifUrl := some url,
                          status := Status.done }) ∧
      (∀ e, encRes = Except.error e →
        ufinal = { s with status := Status.error,
                          error := some ("Failed to generate GIF. " ++ e) }) ∧
      (∀ url e, encRes = Except.ok url → capRes = Except.error e →
        ufinal = { s with status := Status.error,
                          error := some ("Failed to generate GIF. " ++ e) }) ∧
      (ufinal.status = Status.error →
        ufinal.gifUrl = s.gifUrl ∧ ufinal.gifDescription = s.gifDescription ∧
        ∃ m, ufinal.error = some m ∧ m ≠ "") := by
  have hstart : s.selectedFrameRange.start = some a := by rw [hsel]
  have hstop : s.selectedFrameRange.stop = some b := by rw [hsel]
  cases encRes with
  | ok url0 =>
    cases capRes with
    | ok desc0 =>
      refine ⟨{ s with status := Status.generating, gifUrl := none, error := none },
              { s with gifDescription := desc0, gifUrl := some url0,
                       status := Status.done },
              ?_, rfl, rfl, rfl, ?_, ?_, ?_, ?_⟩
      · unfold generateGif
        rw [hstart, hstop]
      · intro url desc h1 h2
        injection h1 with h1
        injection h2 with h2
        rw [h1, h2]
      · intro e h1
        exact absurd h1 (by simp)
      · intro url e _ h2
        exact absurd h2 (by simp)
      · intro hst
        exact absurd hst (by simp)
    | error e0 =>
      refine ⟨{ s with status := Status.generating, gifUrl := none, error := none },
              { s with status := Status.error,
                       error := some ("Failed to generate GIF. " ++ e0) },
              ?_, rfl, rfl, rfl, ?_, ?_, ?_, ?_⟩
      · unfold generateGif
        rw [hstart, hstop]
      · intro url desc _ h2
        exact absurd h2 (by simp)
      · intro e h1
        exact absurd h1 (by simp)
      · intro url e _ h2
        injection h2 with h2
        rw [h2]
      · intro _
        exact ⟨rfl, rfl, "Failed to generate GIF. " ++ e0, rfl, genError_ne_empty e0⟩
  | error e0 =>
    refine ⟨{ s with status := Status.generating, gifUrl := none, error := none },
            { s with status := Status.error,
                     error := some ("Failed to generate GIF. " ++ e0) },
            ?_, rfl, rfl, rfl, ?_, ?_, ?_, ?_⟩
    · unfold generateGif
      rw [hstart, hstop]
      cases capRes <;> rfl
    · intro url desc h1 _
      exact absurd h1 (by simp)
    · intro e h1
      injection h1 with h1
      rw [h1]
    · intro url e h1 _
      exact absurd h1 (by simp)
    · intro _
      exact ⟨rfl, rfl, "Failed to generate GIF. " ++ e0, rfl, genError_ne_empty e0⟩

/-- A previously completed segment: `done` with a gif URL, re-generating. -/
def c2cexseg : Segment :=
  { id := 1
    timeRange := { start := 0, stop := 1 }
    frames := [⟨1, 0, "f0"⟩, ⟨2, 1 / 10, "f1"⟩]
    selectedFrameRange := { start := some 1, stop := some 2 }
    gifDescription := "old desc"
    status := Status.done
    gifUrl := some "old"
    error := none }

/-- C2 (counterexample): when the caption call fails on a segment that
already carried a gif URL, the error update retains that URL — `gifUrl` is
NOT undefined in the resulting `error` state. -/
theorem generateGif_stale_gifUrl_cex :
    ((generateGif c2cexseg (Except.ok "fresh") (Except.error "boom")).updates.getLast?).map
      (fun u => (u.status, u.gifUrl)) = some (Status.error, some "old") := by
  decide

/-- A fresh `frames_ready` segment with both selection ends set. -/
def c2wseg : Segment :=
  { id := 1
    timeRange := { start := 0, stop := 1 }
    frames := [⟨1, 0, "f0"⟩, ⟨2, 1 / 10, "f1"⟩]
    selectedFrameRange := { start := some 1, stop := some 2 }
    gifDescription := ""
    status := Status.frames_ready
    gifUrl := none
    error := none }

theorem generateGif_join_semantics_witness :
    (generateGif c2wseg (Except.ok "u") (Except.ok "d")).updates.map Segment.status =
      [Status.generating, Status.done] := by
  obtain ⟨u1, ufinal, hup, h1, -, -, hok, -, -, -⟩ :=
    generateGif_join_semantics c2wseg 1 2 (Except.ok "u") (Except.ok "d") rfl
  rw [hup, List.map_cons, List.map_cons, List.map_nil, h1, hok "u" "d" rfl rfl]

/-- The ids of the frames built by one extraction are exactly the draws of
the id source. -/
lemma extract_frame_ids (g : ℕ → ℚ) (d : ℚ → String) (stop t : ℚ) :
    ((buildFrames g d 0 (extractLoop stop t)).map Frame.id) =
      (List.range (stepCount stop t)).map g := by
  rw [extractLoop_eq_map, buildFrames_map_range, List.map_map]
  apply List.map_congr_left
  intro k _
  simp

/-- C9 (amended): frame ids are the values drawn from the random source and
are pairwise distinct whenever the draws are; a segment's id is the clock
reading at creation, so two segments have distinct ids whenever they were
created at distinct instants; and every operation's updates preserve the
segment id (stability). Uniqueness is NOT unconditional (see the
counterexample). -/
theorem unique_ids_conditional (g : ℕ → ℚ) (d : ℚ → String)
    (hg : Function.Injective g) (s : Segment) (t u : ℚ) (htu : t ≠ u) (ev : Ev) :
    (∀ w ∈ extractFrames s true true g d, (w.frames.map Frame.id).Nodup) ∧
    (newSegment t).id ≠ (newSegment u).id ∧
    (∀ s' ∈ applyEv s ev, s'.id = s.id) := by
  refine ⟨?_, htu, ?_⟩
  · intro w hw
    unfold extractFrames at hw
    simp at hw
    rcases hw with hw | hw
    · rw [hw]
      simp
    · rw [hw]
      simp only
      rw [extract_frame_ids]
      exact (List.nodup_range _).map hg
  · intro s' hs'
    cases ev with
    | rangeChange part value => exact (mem_rangeChange_props hs').1
    | loadedMetadata dur =>
      by_cases hc : s.timeRange.stop = 1
      · simp [applyEv, handleLoadedMetadata, hc] at hs'
        rw [hs']
      · simp [applyEv, handleLoadedMetadata, hc] at hs'
    | selectFrame fid =>
      simp [applyEv] at hs'
      rw [hs']
      exact (handleFrameSelection_props s fid).1
    | extract r c gg dd => exact (mem_extractFrames_props hs').1
    | generate encRes capRes => exact (mem_generateGif_props hs').1

theorem unique_ids_conditional_witness : (newSegment 0).id ≠ (newSegment 1).id :=
  (unique_ids_conditional (fun n => (n : ℚ)) (fun _ => "") Nat.cast_injective
    (newSegment 0) 0 1 (by norm_num) (Ev.selectFrame 0)).2.1

/-- C9 (counterexample): two `addSegment` calls inside the same millisecond
(`Date.now()` returns the same value) yield two segments with the same id —
segment ids are not unique. -/
theorem segment_id_collision_cex :
    ¬ (((addSegment [newSegment 1000] 1000).map Segment.id).Nodup) := by
  decide

/-- Any admissible update step preserves `start < stop` on the time range. -/
lemma goodStep_preserves_range {s s' : Segment} (hst : GoodStep s s')
    (hs : s.timeRange.start < s.timeRange.stop) :
    s'.timeRange.start < s'.timeRange.stop := by
  obtain ⟨ev, hadm, hmem⟩ := hst
  cases ev with
  | rangeChange part value => exact (mem_rangeChange_props hmem).2
  | loadedMetadata dur => exact (mem_loadedMetadata_props hadm hmem).2
  | selectFrame fid =>
    simp [applyEv] at hmem
    rw [hmem, (handleFrameSelection_props s fid).2.1]
    exact hs
  | extract r c gg dd =>
    rw [(mem_extractFrames_props hmem).2]
    exact hs
  | generate encRes capRes =>
    rw [(mem_generateGif_props hmem).2]
    exact hs

/-- C6 (amended): along admissible traces (metadata loads reporting a
positive duration), every reachable segment satisfies
`timeRange.start < timeRange.stop`, and `handleRangeChange` rejects any edit
that would violate the invariant synchronously, issuing no update at all. -/
theorem timeRange_invariant (s : Segment) (h : ReachGood s) :
    s.timeRange.start < s.timeRange.stop ∧
    (∀ v, s.timeRange.stop ≤ v → handleRangeChange s EditPart.pstart v = none) ∧
    (∀ v, v ≤ s.timeRange.start → handleRangeChange s EditPart.pend v = none) := by
  refine ⟨?_, ?_, ?_⟩
  · obtain ⟨t, hreach⟩ := h
    induction hreach with
    | refl => norm_num [newSegment]
    | tail hsteps hstep ih => exact goodStep_preserves_range hstep ih
  · intro v hv
    simp [handleRangeChange]
    exact hv
  · intro v hv
    simp [handleRangeChange]
    exact hv

theorem timeRange_invariant_witness :
    handleRangeChange (newSegment 0) EditPart.pstart 5 = none :=
  (timeRange_invariant (newSegment 0) ⟨0, Relation.ReflTransGen.refl⟩).2.1 5
    (by norm_num [newSegment])

/-- C6 (counterexample): a metadata load reporting duration `0` on a segment
still holding the default range IS applied (a state change) and installs the
range `{0, 0}`, violating `start < end`. -/
theorem timeRange_invariant_cex :
    (handleLoadedMetadata (newSegment 9) 0 ≠ none) ∧
    ((handleLoadedMetadata (newSegment 9) 0).map
      (fun u => decide (u.timeRange.start < u.timeRange.stop)) = some false) := by
  decide

/-- C1: for any segment with `start < end` and the fixed rate 10, a
successful `extractFrames` run issues the extracting update followed by a
final update carrying exactly `floor((end - start) * 10) + 1` frames, whose
`k`-th timestamp is exactly `start + k/10`; a timestamp is emitted exactly
while `start + k/10 ≤ end`, and the frames are appended in strictly
increasing timestamp order. -/
theorem extractFrames_count_timestamps (s : Segment) (g : ℕ → ℚ) (d : ℚ → String)
    (h : s.timeRange.start < s.timeRange.stop) :
    ∃ u1 u2, extractFrames s true true g d = [u1, u2] ∧
      u2.status = Status.frames_ready ∧
      u2.frames.length =
        (⌊(s.timeRange.stop - s.timeRange.start) * 10⌋).toNat + 1 ∧
      (∀ k : ℕ, ∀ hk : k < u2.frames.length,
        (u2.frames.get ⟨k, hk⟩).timestamp = s.timeRange.start + (k : ℚ) / 10) ∧
      (∀ k : ℕ, k < u2.frames.length ↔
        s.timeRange.start + (k : ℚ) / 10 ≤ s.timeRange.stop) ∧
      List.Chain' (fun f1 f2 => f1.timestamp < f2.timestamp) u2.frames := by
  have hle : s.timeRange.start ≤ s.timeRange.stop := le_of_lt h
  have hcount := stepCount_of_le hle
  have h0 := stepCount_floor_nonneg hle
  have hframes : buildFrames g d 0 (extractLoop s.timeRange.stop s.timeRange.start) =
      (List.range (stepCount s.timeRange.stop s.timeRange.start)).map
        (fun i => Frame.mk (g (0 + i)) (s.timeRange.start + (i : ℚ) / 10)
          (d (s.timeRange.start + (i : ℚ) / 10))) := by
    rw [extractLoop_eq_map, buildFrames_map_range]
  refine ⟨_, _, rfl, rfl, ?_, ?_, ?_, ?_⟩
  · simp only [hframes, List.length_map, List.length_range]
    exact hcount
  · intro k hk
    simp only [hframes, List.get_eq_getElem, List.getElem_map, List.getElem_range]
  · intro k
    have hlen : (buildFrames g d 0
        (extractLoop s.timeRange.stop s.timeRange.start)).length =
        stepCount s.timeRange.stop s.timeRange.start := by
      simp only [hframes, List.length_map, List.length_range]
    simp only [hlen]
    rw [hcount]
    constructor
    · intro hk
      have hk' : (k : Int) ≤ ⌊(s.timeRange.stop - s.timeRange.start) * 10⌋ := by omega
      have hq : ((k : Int) : ℚ) ≤ (s.timeRange.stop - s.timeRange.start) * 10 :=
        Int.le_floor.mp hk'
      push_cast at hq
      linarith
    · intro hk
      have hq : ((k : Int) : ℚ) ≤ (s.timeRange.stop - s.timeRange.start) * 10 := by
        push_cast
        linarith
      have hk' : (k : Int) ≤ ⌊(s.timeRange.stop - s.timeRange.start) * 10⌋ :=
        Int.le_floor.mpr hq
      omega
  · rw [hframes, List.chain'_map]
    rcases hn : stepCount s.timeRange.stop s.timeRange.start with _ | m
    · simp
    · rw [List.chain'_range_succ]
      intro i _
      simp only
      have hlt : (i : ℚ) / 10 < ((i : ℚ) + 1) / 10 := by linarith
      push_cast
      linarith

theorem extractFrames_count_timestamps_witness :
    ((extractFrames (newSegment 3) true true (fun n => (n : ℚ))
        (fun _ => "")).getLast?).map (fun u => u.frames.length) = some 11 := by
  obtain ⟨u1, u2, heq, -, hlen, -, -, -⟩ :=
    extractFrames_count_timestamps (newSegment 3) (fun n => (n : ℚ)) (fun _ => "")
      (by norm_num [newSegment])
  rw [heq]
  have hgl : ([u1, u2].getLast?) = some u2 := rfl
  rw [hgl]
  refine congrArg some ?_
  show u2.frames.length = 11
  rw [hlen]
  norm_num [newSegment]
  omega
